import Mathlib

/-!
Shallow embedding of the core of `port-conflict-resolver` (`src/resolver.js`):
the bind-probe availability check (`isPortAvailable`), the linear port search
(`findAvailablePort`), the kill-and-verify procedure (`killPort`) and the
framework-aware port chooser (`findPortForFramework`).

External effects are modelled explicitly:
* the OS socket table is a `NetWorld` (which ports are bound, which ports the
  caller may not bind) threaded through the bind-probe;
* for the searches, the probe is abstracted to an oracle `avail : Nat → Bool`
  (the boolean the probe resolves with at each call);
* for `killPort`, the results of the external commands (`getPortPid`,
  the name lookup, the confirmation prompt, the kill commands) are a `KillEnv`,
  and the observable actions are recorded as a trace of events `Ev`.
A JavaScript `throw` is an `Except.error` carrying the error message.
-/

/-- The OS socket table as seen by the bind-probe: `bound p` means some process
already holds a listening socket on `p` (bind fails with `EADDRINUSE`);
`deny p` means binding `p` fails for any other reason (e.g. `EACCES` on a
privileged port). -/
@[ext]
structure NetWorld where
  bound : Nat → Bool
  deny : Nat → Bool

/-- Kinds of bind failure distinguished by `server.once('error', ...)`:
`err.code === 'EADDRINUSE'` versus everything else. -/
inductive BindErr where
  | addrInUse
  | other
  deriving DecidableEq

/-- `net.createServer().listen(port, host)`: entering the listening state
inserts the port into the socket table; failure leaves the table unchanged. -/
def bindListen (w : NetWorld) (p : Nat) : Except BindErr NetWorld :=
  if w.deny p then Except.error BindErr.other
  else if w.bound p then Except.error BindErr.addrInUse
  else Except.ok { w with bound := fun q => if q = p then true else w.bound q }

/-- `server.close()`: the probe socket is released from the socket table. -/
def closeSocket (w : NetWorld) (p : Nat) : NetWorld :=
  { w with bound := fun q => if q = p then false else w.bound q }

/-- `PortResolver.isPortAvailable(port)` (resolver.js lines 15-35): bind a
listening socket on 127.0.0.1; any `error` event resolves `false`; the
`listening` event closes the socket and then resolves `true`.  A port above
65535 makes `server.listen` throw `ERR_SOCKET_BAD_PORT` synchronously, which
rejects the promise. -/
def isPortAvailable (w : NetWorld) (p : Nat) : Except String (Bool × NetWorld) :=
  if 65535 < p then Except.error "ERR_SOCKET_BAD_PORT"
  else
    match bindListen w p with
    | Except.error _ => Except.ok (false, w)
    | Except.ok w1 => Except.ok (true, closeSocket w1 p)

/-- The boolean an `isPortAvailable` call resolves with, for a port in range:
the oracle used when the searches are run against a fixed socket table. -/
def availIn (w : NetWorld) (p : Nat) : Bool :=
  !w.deny p && !w.bound p

/-- The `for (let i = 1; i < maxAttempts; i++)` loop of `findAvailablePort`
(resolver.js lines 47-55), with `fuel = maxAttempts - i` remaining iterations
and `port = startPort + i` the current candidate: stop at 65535, return the
first available candidate. -/
def searchLoop (avail : Nat → Bool) : Nat → Nat → Option Nat
  | _, 0 => none
  | port, fuel + 1 =>
    if 65535 < port then none
    else if avail port then some port
    else searchLoop avail (port + 1) fuel

/-- The message of the `Error` thrown when the search is exhausted
(resolver.js line 57). -/
def exhaustedMsg (maxAttempts : Nat) : String :=
  "Could not find available port within " ++ toString maxAttempts ++ " attempts"

/-- `PortResolver.findAvailablePort(startPort, maxAttempts)` (resolver.js
lines 40-58): return `startPort` if it is available, otherwise scan
`startPort + 1, startPort + 2, ...`; throw when the attempt budget is spent. -/
def findAvailablePort (avail : Nat → Bool) (startPort maxAttempts : Nat) :
    Except String Nat :=
  if avail startPort then Except.ok startPort
  else
    match searchLoop avail (startPort + 1) (maxAttempts - 1) with
    | some p => Except.ok p
    | none => Except.error (exhaustedMsg maxAttempts)

/-- Instrumented variant of `searchLoop` that also records, in order, the
candidates handed to `isPortAvailable`. -/
def searchLoopProbes (avail : Nat → Bool) : Nat → Nat → Option Nat × List Nat
  | _, 0 => (none, [])
  | port, fuel + 1 =>
    if 65535 < port then (none, [])
    else if avail port then (some port, [port])
    else
      let rest := searchLoopProbes avail (port + 1) fuel
      (rest.1, port :: rest.2)

/-- Instrumented variant of `findAvailablePort` that also records, in order,
the ports handed to `isPortAvailable`. -/
def findAvailablePortProbes (avail : Nat → Bool) (startPort maxAttempts : Nat) :
    Except String Nat × List Nat :=
  if avail startPort then (Except.ok startPort, [startPort])
  else
    let rest := searchLoopProbes avail (startPort + 1) (maxAttempts - 1)
    match rest.1 with
    | some p => (Except.ok p, startPort :: rest.2)
    | none => (Except.error (exhaustedMsg maxAttempts), startPort :: rest.2)

/-- `process.platform` as far as the resolver distinguishes it. -/
inductive Platform where
  | win32
  | darwin
  | linux
  deriving DecidableEq

/-- Signals/commands the kill phase can issue: `kill -TERM <pid>`,
`kill -9 <pid>`, `taskkill /PID <pid> /F`. -/
inductive Sig where
  | term (pid : Nat)
  | kill9 (pid : Nat)
  | taskkillF (pid : Nat)
  deriving DecidableEq

/-- Observable actions of `killPort`, in order: an ownership probe
(`getPortPid`), the process-name lookup, the confirmation prompt with the
answer received, an issued kill command, and the fixed grace delay. -/
inductive Ev where
  | probeOwner (r : Option Nat)
  | lookupName
  | ask (answer : Bool)
  | sig (s : Sig)
  | delayMs (ms : Nat)
  deriving DecidableEq

/-- Responses of the external world to the commands `killPort` runs, in the
order it runs them: the two `getPortPid` probes, the name lookup (`none` when
the command failed, otherwise the trimmed stdout), the confirmation answer,
and success/failure of each kill command (with the error message of the
command whose failure is propagated). -/
structure KillEnv where
  platform : Platform
  pidBefore : Option Nat
  nameOut : Option String
  confirm : Bool
  termOk : Bool
  killOk : Bool
  kill9Err : String
  taskkillOk : Bool
  taskkillErr : String
  pidAfter : Option Nat
  deriving DecidableEq

/-- JavaScript truthiness of the value returned by `getPortPid` (a number or
`null`): `if (!pid)` takes the no-process branch exactly when the value is
`null` or `0`. -/
def truthyPid : Option Nat → Bool
  | none => false
  | some n => n != 0

/-- The `processName` computed at resolver.js lines 104-115: `'Unknown'` when
the lookup command failed or produced an empty string; on win32 the first
comma-separated field of the trimmed `tasklist` output, otherwise the trimmed
`ps -o comm=` output. -/
def processNameOf (env : KillEnv) : String :=
  match env.nameOut with
  | none => "Unknown"
  | some out =>
    match env.platform with
    | Platform.win32 =>
      let first := (out.splitOn ",").headD ""
      if first = "" then "Unknown" else first
    | _ => if out = "" then "Unknown" else out

/-- The object `killPort` resolves with: `success` and `message` always,
`pid` and `name` only on the branches that set them. -/
structure KillResult where
  success : Bool
  message : String
  pid : Option Nat
  name : Option String
  deriving DecidableEq

/-- Resolver.js lines 142-160: after the kill commands, `delay(500)`, then
re-probe ownership with `getPortPid`; a truthy pid means the process may
still be running, otherwise the kill is reported as successful. -/
def afterKillCheck (env : KillEnv) (pid : Nat) (processName : String)
    (tr : List Ev) : KillResult × List Ev :=
  let tr2 := tr ++ [Ev.delayMs 500, Ev.probeOwner env.pidAfter]
  if truthyPid env.pidAfter then
    ({ success := false, message := "Process may still be running",
       pid := some pid, name := some processName }, tr2)
  else
    ({ success := true, message := "Process killed successfully",
       pid := some pid, name := some processName }, tr2)

/-- `PortResolver.killPort(port, force)` (resolver.js lines 96-169), paired
with the trace of observable actions it performs. -/
def killPort (env : KillEnv) (port : Nat) (force : Bool) :
    KillResult × List Ev :=
  let tr0 := [Ev.probeOwner env.pidBefore]
  if truthyPid env.pidBefore = false then
    ({ success := false, message := "No process found on this port",
       pid := none, name := none }, tr0)
  else
    let pid := env.pidBefore.getD 0
    let processName := processNameOf env
    let tr1 := tr0 ++ [Ev.lookupName]
    let tr2 := if force then tr1 else tr1 ++ [Ev.ask env.confirm]
    if force = false ∧ env.confirm = false then
      ({ success := false, message := "Cancelled by user",
         pid := none, name := none }, tr2)
    else
      match env.platform with
      | Platform.win32 =>
        let tr3 := tr2 ++ [Ev.sig (Sig.taskkillF pid)]
        if env.taskkillOk then afterKillCheck env pid processName tr3
        else
          ({ success := false, message := env.taskkillErr,
             pid := some pid, name := some processName }, tr3)
      | _ =>
        let tr3 := tr2 ++ [Ev.sig (Sig.term pid)]
        if env.termOk then afterKillCheck env pid processName tr3
        else
          let tr4 := tr3 ++ [Ev.sig (Sig.kill9 pid)]
          if env.killOk then afterKillCheck env pid processName tr4
          else
            ({ success := false, message := env.kill9Err,
               pid := some pid, name := some processName }, tr4)

/-- Whether the kill phase managed to issue its signal(s) without the
propagated command failure of resolver.js line 161. -/
def deliveryOk (env : KillEnv) : Bool :=
  match env.platform with
  | Platform.win32 => env.taskkillOk
  | _ => env.termOk || env.killOk

/-- The error message surfaced when signal delivery fails: on win32 the
`taskkill` failure, elsewhere the `kill -9` failure (the `kill -TERM` failure
is swallowed by the inner catch). -/
def finalKillErr (env : KillEnv) : String :=
  match env.platform with
  | Platform.win32 => env.taskkillErr
  | _ => env.kill9Err

/-- The kill commands issued during a trace, in order. -/
def sigsOf : List Ev → List Sig
  | [] => []
  | Ev.sig s :: rest => s :: sigsOf rest
  | _ :: rest => sigsOf rest

/-- The static table returned by `PortResolver.getFrameworkSuggestions()`
(resolver.js lines 228-254), in source order. -/
def frameworkSuggestions : List (String × List Nat) :=
  [("React/Vite", [5173, 5174, 5175, 5180]),
   ("Next.js", [3000, 3001, 3002, 3003]),
   ("Create React App", [3000, 3001, 3002]),
   ("Vue CLI/Vite", [5173, 5174, 5175, 8080]),
   ("Angular", [4200, 4201]),
   ("Express", [3000, 4000, 5000, 8080]),
   ("FastAPI", [8000, 8001, 8080]),
   ("Flask", [5000, 5001, 8000]),
   ("Django", [8000, 8001, 8080]),
   ("Ruby on Rails", [3000, 5000]),
   ("Laravel", [8000, 8001]),
   ("Node.js", [3000, 4000, 5000, 8080]),
   ("NestJS", [3000, 4000, 5000]),
   ("Gatsby", [8000, 8001]),
   ("Hugo", [1313, 1314]),
   ("Spring Boot", [8080, 8081, 8443]),
   ("ASP.NET Core", [5000, 5001, 8080]),
   ("Docker", [2375, 2376, 5000, 8080]),
   ("PostgreSQL", [5432, 5433]),
   ("MySQL", [3306, 3307]),
   ("MongoDB", [27017, 27018, 27019]),
   ("Redis", [6379, 6380]),
   ("Elasticsearch", [9200, 9300])]

/-- The fallback list `[3000, 4000, 5000, 8000]` of resolver.js line 261. -/
def defaultPreferredPorts : List Nat := [3000, 4000, 5000, 8000]

/-- The `for (const port of preferredPorts)` loop of resolver.js lines
263-268: first listed port the probe reports available. -/
def findFirstAvailable (avail : Nat → Bool) : List Nat → Option Nat
  | [] => none
  | p :: rest => if avail p then some p else findFirstAvailable avail rest

/-- Names of the properties a plain object literal inherits from
`Object.prototype` in Node: reading `suggestions[name]` for one of these
yields an inherited function (or, for `__proto__`, the prototype object),
which is truthy and not iterable. -/
def objectProtoProps : List String :=
  ["constructor", "hasOwnProperty", "isPrototypeOf", "propertyIsEnumerable",
   "toLocaleString", "toString", "valueOf", "__proto__", "__defineGetter__",
   "__defineSetter__", "__lookupGetter__", "__lookupSetter__"]

/-- The JS expression `suggestions[framework] || [3000, 4000, 5000, 8000]`
of resolver.js line 261: an own key of the table yields its listed array; a
name of an inherited `Object.prototype` member yields a truthy non-iterable
value which `||` keeps (`none` here); any other name reads `undefined`, so
the default list is taken. -/
def preferredPortsOf (framework : String) : Option (List Nat) :=
  match List.lookup framework frameworkSuggestions with
  | some ports => some ports
  | none =>
    if framework ∈ objectProtoProps then none
    else some defaultPreferredPorts

/-- `PortResolver.findPortForFramework(framework)` (resolver.js lines
259-272): read the preferred list via the object lookup, return the first
available preferred port, and fall back to `findAvailablePort(3000)` with
its default budget when none is available; when the lookup produced an
inherited non-iterable value, `for (const port of preferredPorts)` throws
a TypeError. -/
def findPortForFramework (avail : Nat → Bool) (framework : String) :
    Except String Nat :=
  match preferredPortsOf framework with
  | none => Except.error "TypeError: preferredPorts is not iterable"
  | some preferredPorts =>
    match findFirstAvailable avail preferredPorts with
    | some p => Except.ok p
    | none => findAvailablePort avail 3000 100

/-- Concrete environment for the kill witnesses: a linux process 1234 named
node that confirms, accepts SIGTERM and releases the port. -/
def envResolved : KillEnv :=
  { platform := Platform.linux, pidBefore := some 1234,
    nameOut := some "node", confirm := true, termOk := true, killOk := true,
    kill9Err := "kill9 failed", taskkillOk := true,
    taskkillErr := "taskkill failed", pidAfter := none }

/-- Concrete failing environment: both SIGTERM and the forceful kill fail.
-/
def envFail : KillEnv :=
  { envResolved with termOk := false, killOk := false }

/-- Concrete environment in which the user declines the confirmation. -/
def envCancel : KillEnv := { envResolved with confirm := false }

/-- The empty socket table: no port bound, no port denied. -/
def freeWorld : NetWorld :=
  { bound := fun _ => false, deny := fun _ => false }

/-- Soundness of the search loop: a returned port lies in the scanned window,
is at most 65535, is available, and every smaller candidate in the window was
probed and found unavailable. -/
lemma searchLoop_eq_some (avail : Nat → Bool) (fuel port p : Nat)
    (h : searchLoop avail port fuel = some p) :
    port ≤ p ∧ p ≤ 65535 ∧ avail p = true ∧ p < port + fuel ∧
    ∀ q, port ≤ q → q < p → avail q = false := by
  induction fuel generalizing port with
  | zero => simp [searchLoop] at h
  | succ n ih =>
    simp only [searchLoop] at h
    split at h
    next hhi => simp at h
    next hhi =>
      split at h
      next hav =>
        obtain rfl : port = p := Option.some.inj h
        exact ⟨Nat.le_refl _, by omega, hav, by omega, fun q hq1 hq2 => by omega⟩
      next hav =>
        have hav2 : avail port = false := by
          revert hav; cases avail port <;> simp
        obtain ⟨ha1, ha2, ha3, ha4, ha5⟩ := ih (port + 1) h
        refine ⟨by omega, ha2, ha3, by omega, ?_⟩
        intro q hq1 hq2
        by_cases hq : q = port
        · rw [hq]; exact hav2
        · exact ha5 q (by omega) hq2

/-- When the search loop gives up, every candidate in the scanned window that
does not exceed 65535 was probed and found unavailable. -/
lemma searchLoop_eq_none (avail : Nat → Bool) (fuel port : Nat)
    (h : searchLoop avail port fuel = none) :
    ∀ q, port ≤ q → q < port + fuel → q ≤ 65535 → avail q = false := by
  induction fuel generalizing port with
  | zero => intro q hq1 hq2 hq3; omega
  | succ n ih =>
    intro q hq1 hq2 hq3
    simp only [searchLoop] at h
    split at h
    next hhi => omega
    next hhi =>
      split at h
      next hav => simp at h
      next hav =>
        have hav2 : avail port = false := by
          revert hav; cases avail port <;> simp
        by_cases hq : q = port
        · rw [hq]; exact hav2
        · exact ih (port + 1) h q (by omega) (by omega) hq3

/-- Completeness of the search loop: the first available candidate of the
scanned window is returned. -/
lemma searchLoop_some_of_first (avail : Nat → Bool) (fuel port p : Nat)
    (h1 : port ≤ p) (h2 : p < port + fuel) (h3 : p ≤ 65535)
    (h4 : avail p = true)
    (h5 : ∀ q, port ≤ q → q < p → avail q = false) :
    searchLoop avail port fuel = some p := by
  induction fuel generalizing port with
  | zero => omega
  | succ n ih =>
    simp only [searchLoop]
    rw [if_neg (by omega : ¬ 65535 < port)]
    by_cases he : port = p
    · rw [he, if_pos h4]
    · have hav : avail port = false := h5 port (Nat.le_refl port) (by omega)
      rw [if_neg (by simp [hav])]
      exact ih (port + 1) (by omega) (by omega)
        (fun q hq1 hq2 => h5 q (by omega) hq2)

/-- When every candidate of the scanned window is unavailable, the search
loop gives up. -/
lemma searchLoop_none_of_unavail (avail : Nat → Bool) (fuel port : Nat)
    (h : ∀ q, port ≤ q → q < port + fuel → avail q = false) :
    searchLoop avail port fuel = none := by
  induction fuel generalizing port with
  | zero => rfl
  | succ n ih =>
    simp only [searchLoop]
    by_cases hhi : 65535 < port
    · rw [if_pos hhi]
    · rw [if_neg hhi]
      have hav : avail port = false := h port (Nat.le_refl port) (by omega)
      rw [if_neg (by simp [hav])]
      exact ih (port + 1) (fun q hq1 hq2 => h q (by omega) (by omega))

/-- Every port the instrumented loop probes lies in the scanned window. -/
lemma searchLoopProbes_mem (avail : Nat → Bool) (fuel port q : Nat)
    (h : q ∈ (searchLoopProbes avail port fuel).2) :
    port ≤ q ∧ q < port + fuel := by
  induction fuel generalizing port with
  | zero => simp [searchLoopProbes] at h
  | succ n ih =>
    simp only [searchLoopProbes] at h
    split at h
    next => simp at h
    next =>
      split at h
      next =>
        simp at h
        omega
      next =>
        simp at h
        rcases h with h | h
        · omega
        · have := ih (port + 1) h
          omega

/-- When every candidate of the scanned window is unavailable and the window
stays within the port range, the instrumented loop probes the whole window in
increasing order. -/
lemma searchLoopProbes_of_unavail (avail : Nat → Bool) (fuel port : Nat)
    (h : ∀ q, port ≤ q → q < port + fuel → avail q = false)
    (hub : port + fuel ≤ 65536) :
    (searchLoopProbes avail port fuel).2 =
      (List.range fuel).map (fun i => port + i) := by
  induction fuel generalizing port with
  | zero => rfl
  | succ n ih =>
    simp only [searchLoopProbes]
    rw [if_neg (by omega : ¬ 65535 < port)]
    have hav : avail port = false := h port (Nat.le_refl port) (by omega)
    rw [if_neg (by simp [hav])]
    have htail := ih (port + 1)
      (fun q hq1 hq2 => h q (by omega) (by omega)) (by omega)
    simp only [htail, List.range_succ_eq_map, List.map_cons, List.map_map]
    congr 1
    apply List.map_congr_left
    intro i _
    simp only [Function.comp_apply]
    omega

/-- The ports the instrumented search probes, when the start port itself is
unavailable: the start port first, then whatever the loop probes. -/
lemma findAvailablePortProbes_snd (avail : Nat → Bool)
    (startPort maxAttempts : Nat) (h : avail startPort = false) :
    (findAvailablePortProbes avail startPort maxAttempts).2 =
      startPort ::
        (searchLoopProbes avail (startPort + 1) (maxAttempts - 1)).2 := by
  simp only [findAvailablePortProbes]
  rw [if_neg (by simp [h])]
  cases h2 : (searchLoopProbes avail (startPort + 1) (maxAttempts - 1)).1 <;>
    simp [h2]

/-- C2: `findAvailablePort(startPort, maxAttempts)` returns `startPort` when
it is available; otherwise any returned port is the first available one of
the strictly increasing candidates `startPort + 1, startPort + 2, ...`, never
below `startPort`, never above 65535, and within the budget of
`maxAttempts - 1` additional probes. -/
theorem findAvailablePort_spec (avail : Nat → Bool)
    (startPort maxAttempts : Nat) (hsp : startPort ≤ 65535) :
    (avail startPort = true →
      findAvailablePort avail startPort maxAttempts = Except.ok startPort) ∧
    (∀ p, findAvailablePort avail startPort maxAttempts = Except.ok p →
      startPort ≤ p ∧ p ≤ 65535 ∧ avail p = true ∧
      p ≤ startPort + (maxAttempts - 1) ∧
      ∀ q, startPort ≤ q → q < p → avail q = false) := by
  constructor
  · intro ha
    simp [findAvailablePort, ha]
  · intro p hp
    by_cases ha : avail startPort = true
    · rw [findAvailablePort, if_pos ha] at hp
      obtain rfl : startPort = p := Except.ok.inj hp
      exact ⟨Nat.le_refl _, hsp, ha, by omega, fun q hq1 hq2 => by omega⟩
    · have ha2 : avail startPort = false := by
        revert ha; cases avail startPort <;> simp
      rw [findAvailablePort, if_neg (by simp [ha2])] at hp
      cases hsl : searchLoop avail (startPort + 1) (maxAttempts - 1) with
      | none => rw [hsl] at hp; exact absurd hp (by simp)
      | some r =>
        rw [hsl] at hp
        obtain rfl : r = p := Except.ok.inj hp
        obtain ⟨hb1, hb2, hb3, hb4, hb5⟩ :=
          searchLoop_eq_some avail (maxAttempts - 1) (startPort + 1) _ hsl
        refine ⟨by omega, hb2, hb3, by omega, ?_⟩
        intro q hq1 hq2
        by_cases hq : q = startPort
        · rw [hq]; exact ha2
        · exact hb5 q (by omega) hq2

/-- Witness for C2 at a concrete oracle: ports 3000 and 3001 busy, 3002
free. -/
theorem findAvailablePort_spec_witness :
    (3000 ≤ 65535) ∧
    (((fun q => decide (q = 3002)) 3000 = true →
      findAvailablePort (fun q => decide (q = 3002)) 3000 100 =
        Except.ok 3000) ∧
    (∀ p, findAvailablePort (fun q => decide (q = 3002)) 3000 100 =
        Except.ok p →
      3000 ≤ p ∧ p ≤ 65535 ∧ (fun q => decide (q = 3002)) p = true ∧
      p ≤ 3000 + (100 - 1) ∧
      ∀ q, 3000 ≤ q → q < p → (fun q => decide (q = 3002)) q = false)) :=
  ⟨by omega, findAvailablePort_spec (fun q => decide (q = 3002)) 3000 100
    (by omega)⟩

/-- C3 as written is refuted at startPort 3000 with ports 3000..3004 busy and
3005 free: with `maxAttempts = 5` the search throws the exhaustion error
instead of returning 3005. -/
theorem findAvailablePort_boundary_cex :
    findAvailablePort (fun q => decide (q = 3005)) 3000 5 =
        Except.error (exhaustedMsg 5) ∧
    findAvailablePort (fun q => decide (q = 3005)) 3000 5 ≠
        Except.ok 3005 := by
  constructor
  · rfl
  · intro h
    rw [show findAvailablePort (fun q => decide (q = 3005)) 3000 5 =
        Except.error (exhaustedMsg 5) from rfl] at h
    exact Except.noConfusion h

/-- C3 (amended): with ports p..p+4 occupied and p+5 free, the search returns
p+5 only with a budget of at least 6 attempts; with `maxAttempts = 5` it
fails with the exhaustion error, probing exactly p..p+4 and never p+5. -/
theorem findAvailablePort_boundary (p : Nat) (avail : Nat → Bool)
    (hocc : ∀ q, p ≤ q → q ≤ p + 4 → avail q = false)
    (hfree : avail (p + 5) = true) (hub : p + 5 ≤ 65535) :
    findAvailablePort avail p 6 = Except.ok (p + 5) ∧
    findAvailablePort avail p 5 = Except.error (exhaustedMsg 5) ∧
    (findAvailablePortProbes avail p 5).2 = [p, p+1, p+2, p+3, p+4] ∧
    p + 5 ∉ (findAvailablePortProbes avail p 5).2 := by
  have h0 : avail p = false := hocc p (Nat.le_refl p) (by omega)
  have hwin : ∀ q, p + 1 ≤ q → q < p + 1 + 4 → avail q = false :=
    fun q hq1 hq2 => hocc q (by omega) (by omega)
  refine ⟨?_, ?_, ?_, ?_⟩
  · rw [findAvailablePort, if_neg (by simp [h0])]
    have : searchLoop avail (p + 1) (6 - 1) = some (p + 5) :=
      searchLoop_some_of_first avail (6 - 1) (p + 1) (p + 5)
        (by omega) (by omega) hub hfree hwin
    rw [this]
  · rw [findAvailablePort, if_neg (by simp [h0])]
    have : searchLoop avail (p + 1) (5 - 1) = none :=
      searchLoop_none_of_unavail avail (5 - 1) (p + 1)
        (fun q hq1 hq2 => hocc q (by omega) (by omega))
    rw [this]
  · rw [findAvailablePortProbes_snd avail p 5 h0]
    have : (searchLoopProbes avail (p + 1) (5 - 1)).2 =
        (List.range (5 - 1)).map (fun i => p + 1 + i) :=
      searchLoopProbes_of_unavail avail (5 - 1) (p + 1)
        (fun q hq1 hq2 => hocc q (by omega) (by omega)) (by omega)
    rw [this]
    have hr : List.range (5 - 1) = [0, 1, 2, 3] := rfl
    rw [hr]
    simp
  · intro hmem
    rw [findAvailablePortProbes_snd avail p 5 h0] at hmem
    rcases List.mem_cons.mp hmem with heq | hmem2
    · omega
    · have := searchLoopProbes_mem avail (5 - 1) (p + 1) (p + 5) hmem2
      omega

/-- Witness for C3 (amended) at p = 9995 with exactly 9995..9999 busy. -/
theorem findAvailablePort_boundary_witness :
    (∀ q, 9995 ≤ q → q ≤ 9995 + 4 →
      (fun q => decide (q = 10000)) q = false) ∧
    (fun q => decide (q = 10000)) (9995 + 5) = true ∧
    9995 + 5 ≤ 65535 ∧
    (findAvailablePort (fun q => decide (q = 10000)) 9995 6 =
        Except.ok (9995 + 5) ∧
    findAvailablePort (fun q => decide (q = 10000)) 9995 5 =
        Except.error (exhaustedMsg 5) ∧
    (findAvailablePortProbes (fun q => decide (q = 10000)) 9995 5).2 =
        [9995, 9995+1, 9995+2, 9995+3, 9995+4] ∧
    9995 + 5 ∉ (findAvailablePortProbes (fun q => decide (q = 10000)) 9995 5).2) :=
  ⟨fun q h1 h2 => by simp; omega, by simp, by omega,
    findAvailablePort_boundary 9995 (fun q => decide (q = 10000))
      (fun q h1 h2 => by simp; omega) (by simp) (by omega)⟩


/-- Concatenation distributes over extracting the issued kill commands. -/
lemma sigsOf_append (a b : List Ev) :
    sigsOf (a ++ b) = sigsOf a ++ sigsOf b := by
  induction a with
  | nil => rfl
  | cons x rest ih => cases x <;> simp [sigsOf, ih]

/-- When the owning process was found, the kill was authorized (forced or
confirmed) and the kill command(s) were delivered, `killPort` reaches the
delay-and-reprobe phase, with at least one kill command in the preceding
trace. -/
lemma killPort_authorized_delivered (env : KillEnv) (port : Nat) (force : Bool)
    (hpid : truthyPid env.pidBefore = true)
    (hauth : force = true ∨ env.confirm = true)
    (hdel : deliveryOk env = true) :
    ∃ pre, killPort env port force =
        afterKillCheck env (env.pidBefore.getD 0) (processNameOf env) pre ∧
      ∃ s, Ev.sig s ∈ pre := by
  obtain ⟨plat, pidB, nameO, conf, tOk, kOk, k9e, tkOk, tke, pidA⟩ := env
  have hfc : ¬ (force = false ∧ conf = false) := by
    rcases hauth with h | h
    · simp [h]
    · have h2 : conf = true := h
      simp [h2]
  cases plat with
  | win32 =>
    have htk : tkOk = true := by simpa [deliveryOk] using hdel
    refine ⟨(if force = true then [Ev.probeOwner pidB, Ev.lookupName]
             else [Ev.probeOwner pidB, Ev.lookupName, Ev.ask conf]) ++
            [Ev.sig (Sig.taskkillF (pidB.getD 0))], ?_,
           Sig.taskkillF (pidB.getD 0), ?_⟩
    · simp [killPort, hpid, hfc, htk]
    · simp
  | darwin =>
    simp only [deliveryOk] at hdel
    cases htOk : tOk with
    | true =>
      refine ⟨(if force = true then [Ev.probeOwner pidB, Ev.lookupName]
               else [Ev.probeOwner pidB, Ev.lookupName, Ev.ask conf]) ++
              [Ev.sig (Sig.term (pidB.getD 0))], ?_,
             Sig.term (pidB.getD 0), ?_⟩
      · simp [killPort, hpid, hfc, htOk]
      · simp
    | false =>
      have hkOk : kOk = true := by
        rw [htOk] at hdel; simpa using hdel
      refine ⟨(if force = true then [Ev.probeOwner pidB, Ev.lookupName]
               else [Ev.probeOwner pidB, Ev.lookupName, Ev.ask conf]) ++
              [Ev.sig (Sig.term (pidB.getD 0)),
               Ev.sig (Sig.kill9 (pidB.getD 0))], ?_,
             Sig.term (pidB.getD 0), ?_⟩
      · simp [killPort, hpid, hfc, htOk, hkOk]
      · simp
  | linux =>
    simp only [deliveryOk] at hdel
    cases htOk : tOk with
    | true =>
      refine ⟨(if force = true then [Ev.probeOwner pidB, Ev.lookupName]
               else [Ev.probeOwner pidB, Ev.lookupName, Ev.ask conf]) ++
              [Ev.sig (Sig.term (pidB.getD 0))], ?_,
             Sig.term (pidB.getD 0), ?_⟩
      · simp [killPort, hpid, hfc, htOk]
      · simp
    | false =>
      have hkOk : kOk = true := by
        rw [htOk] at hdel; simpa using hdel
      refine ⟨(if force = true then [Ev.probeOwner pidB, Ev.lookupName]
               else [Ev.probeOwner pidB, Ev.lookupName, Ev.ask conf]) ++
              [Ev.sig (Sig.term (pidB.getD 0)),
               Ev.sig (Sig.kill9 (pidB.getD 0))], ?_,
             Sig.term (pidB.getD 0), ?_⟩
      · simp [killPort, hpid, hfc, htOk, hkOk]
      · simp

/-- C1: after delivering the kill command(s), `killPort` waits the fixed
500ms grace delay and re-probes ownership with `getPortPid`; it reports
success exactly when the re-probe finds no owning process, and otherwise
reports the process may still be running, carrying the pid and process name
— never success merely because the signal was sent. -/
theorem killPort_verifies (env : KillEnv) (port : Nat) (force : Bool)
    (hpid : truthyPid env.pidBefore = true)
    (hauth : force = true ∨ env.confirm = true)
    (hdel : deliveryOk env = true) :
    ((killPort env port force).1.success = true ↔
      truthyPid env.pidAfter = false) ∧
    (truthyPid env.pidAfter = false →
      (killPort env port force).1 =
        { success := true, message := "Process killed successfully",
          pid := some (env.pidBefore.getD 0),
          name := some (processNameOf env) }) ∧
    (truthyPid env.pidAfter = true →
      (killPort env port force).1 =
        { success := false, message := "Process may still be running",
          pid := some (env.pidBefore.getD 0),
          name := some (processNameOf env) }) ∧
    (∃ pre, (killPort env port force).2 =
        pre ++ [Ev.delayMs 500, Ev.probeOwner env.pidAfter] ∧
      ∃ s, Ev.sig s ∈ pre) := by
  obtain ⟨pre, heq, s, hs⟩ :=
    killPort_authorized_delivered env port force hpid hauth hdel
  rw [heq]
  refine ⟨?_, ?_, ?_, ⟨pre, ?_, s, hs⟩⟩
  · cases hpa : truthyPid env.pidAfter <;> simp [afterKillCheck, hpa]
  · intro hpa; simp [afterKillCheck, hpa]
  · intro hpa; simp [afterKillCheck, hpa]
  · cases hpa : truthyPid env.pidAfter <;> simp [afterKillCheck, hpa]

/-- Witness for C1: in `envResolved` the re-probe finds no owner and the
success result is returned. -/
theorem killPort_verifies_witness :
    truthyPid envResolved.pidBefore = true ∧
    (false = true ∨ envResolved.confirm = true) ∧
    deliveryOk envResolved = true ∧
    (((killPort envResolved 3000 false).1.success = true ↔
      truthyPid envResolved.pidAfter = false) ∧
    (truthyPid envResolved.pidAfter = false →
      (killPort envResolved 3000 false).1 =
        { success := true, message := "Process killed successfully",
          pid := some (envResolved.pidBefore.getD 0),
          name := some (processNameOf envResolved) }) ∧
    (truthyPid envResolved.pidAfter = true →
      (killPort envResolved 3000 false).1 =
        { success := false, message := "Process may still be running",
          pid := some (envResolved.pidBefore.getD 0),
          name := some (processNameOf envResolved) }) ∧
    (∃ pre, (killPort envResolved 3000 false).2 =
        pre ++ [Ev.delayMs 500, Ev.probeOwner envResolved.pidAfter] ∧
      ∃ s, Ev.sig s ∈ pre)) :=
  ⟨rfl, Or.inr rfl, rfl,
   killPort_verifies envResolved 3000 false rfl (Or.inr rfl) rfl⟩

/-- C4: `killPort` issues no kill command unless an owning process was found
and the kill was forced or confirmed: with no truthy pid it returns the
not-in-use result right after the ownership probe, and with `force` unset and
confirmation declined it returns the cancelled result right after the
prompt. -/
theorem killPort_gates (env : KillEnv) (port : Nat) (force : Bool) :
    (truthyPid env.pidBefore = false →
      killPort env port force =
        ({ success := false, message := "No process found on this port",
           pid := none, name := none }, [Ev.probeOwner env.pidBefore])) ∧
    (truthyPid env.pidBefore = true → force = false → env.confirm = false →
      killPort env port force =
        ({ success := false, message := "Cancelled by user",
           pid := none, name := none },
         [Ev.probeOwner env.pidBefore, Ev.lookupName,
          Ev.ask env.confirm])) ∧
    (∀ s, Ev.sig s ∈ (killPort env port force).2 →
      truthyPid env.pidBefore = true ∧
      (force = true ∨ env.confirm = true)) := by
  refine ⟨?_, ?_, ?_⟩
  · intro h
    simp [killPort, h]
  · intro h hf hc
    subst hf
    simp [killPort, h, hc]
  · intro s hs
    have h1 : truthyPid env.pidBefore = true := by
      by_contra hh
      have h0 : truthyPid env.pidBefore = false := by
        revert hh; cases truthyPid env.pidBefore <;> simp
      simp [killPort, h0] at hs
    refine ⟨h1, ?_⟩
    by_contra hh
    push_neg at hh
    obtain ⟨hf, hc⟩ := hh
    have hf2 : force = false := by revert hf; cases force <;> simp
    have hc2 : env.confirm = false := by
      revert hc; cases env.confirm <;> simp
    subst hf2
    simp [killPort, h1, hc2] at hs

/-- Witness for C4: not-in-use with no owner, cancelled on declined
confirmation. -/
theorem killPort_gates_witness :
    killPort { envResolved with pidBefore := none } 3000 true =
      ({ success := false, message := "No process found on this port",
         pid := none, name := none },
       [Ev.probeOwner ({ envResolved with pidBefore := none } :
          KillEnv).pidBefore]) ∧
    killPort { envResolved with confirm := false } 3000 false =
      ({ success := false, message := "Cancelled by user",
         pid := none, name := none },
       [Ev.probeOwner ({ envResolved with confirm := false } :
          KillEnv).pidBefore, Ev.lookupName,
        Ev.ask ({ envResolved with confirm := false } : KillEnv).confirm]) :=
  ⟨(killPort_gates { envResolved with pidBefore := none } 3000 true).1 rfl,
   (killPort_gates { envResolved with confirm := false } 3000
      false).2.1 rfl rfl rfl⟩

/-- C5: the kill phase sends a graceful SIGTERM first and escalates to a
forceful kill only when SIGTERM fails; on win32, where graceful termination
is not attempted, only the forceful taskkill is issued; and when delivery of
the final kill command fails, the failure result carries the underlying
error message together with the pid and process name. -/
theorem killPort_escalation (env : KillEnv) (port : Nat) (force : Bool)
    (hpid : truthyPid env.pidBefore = true)
    (hauth : force = true ∨ env.confirm = true) :
    (env.platform ≠ Platform.win32 →
      sigsOf (killPort env port force).2 =
        if env.termOk then [Sig.term (env.pidBefore.getD 0)]
        else [Sig.term (env.pidBefore.getD 0),
              Sig.kill9 (env.pidBefore.getD 0)]) ∧
    (env.platform = Platform.win32 →
      sigsOf (killPort env port force).2 =
        [Sig.taskkillF (env.pidBefore.getD 0)]) ∧
    (deliveryOk env = false →
      (killPort env port force).1 =
        { success := false, message := finalKillErr env,
          pid := some (env.pidBefore.getD 0),
          name := some (processNameOf env) }) := by
  obtain ⟨plat, pidB, nameO, conf, tOk, kOk, k9e, tkOk, tke, pidA⟩ := env
  have hfc : ¬ (force = false ∧ conf = false) := by
    rcases hauth with h | h
    · simp [h]
    · have h2 : conf = true := h
      simp [h2]
  refine ⟨?_, ?_, ?_⟩
  · intro hnw
    cases plat with
    | win32 => exact absurd rfl hnw
    | darwin =>
      cases htOk : tOk <;> cases hkOk : kOk <;>
        cases hpa : truthyPid pidA <;>
        simp [killPort, afterKillCheck, hpid, hfc, htOk, hkOk, hpa,
          sigsOf_append, sigsOf, apply_ite sigsOf]
    | linux =>
      cases htOk : tOk <;> cases hkOk : kOk <;>
        cases hpa : truthyPid pidA <;>
        simp [killPort, afterKillCheck, hpid, hfc, htOk, hkOk, hpa,
          sigsOf_append, sigsOf, apply_ite sigsOf]
  · intro hw
    cases plat with
    | win32 =>
      cases htk : tkOk <;> cases hpa : truthyPid pidA <;>
        simp [killPort, afterKillCheck, hpid, hfc, htk, hpa,
          sigsOf_append, sigsOf, apply_ite sigsOf]
    | darwin => simp at hw
    | linux => simp at hw
  · intro hdel
    cases plat with
    | win32 =>
      have htk : tkOk = false := by simpa [deliveryOk] using hdel
      simp [killPort, finalKillErr, hpid, hfc, htk]
    | darwin =>
      simp only [deliveryOk] at hdel
      have hts : tOk = false ∧ kOk = false := by
        revert hdel; cases tOk <;> cases kOk <;> simp
      simp [killPort, finalKillErr, hpid, hfc, hts.1, hts.2]
    | linux =>
      simp only [deliveryOk] at hdel
      have hts : tOk = false ∧ kOk = false := by
        revert hdel; cases tOk <;> cases kOk <;> simp
      simp [killPort, finalKillErr, hpid, hfc, hts.1, hts.2]

/-- Witness for C5: in `envFail` both SIGTERM and the forceful kill fail, and
the failure result carries the kill -9 error message. -/
theorem killPort_escalation_witness :
    truthyPid envFail.pidBefore = true ∧
    (true = true ∨ envFail.confirm = true) ∧
    ((envFail.platform ≠ Platform.win32 →
      sigsOf (killPort envFail 3000 true).2 =
        if envFail.termOk then [Sig.term (envFail.pidBefore.getD 0)]
        else [Sig.term (envFail.pidBefore.getD 0),
              Sig.kill9 (envFail.pidBefore.getD 0)]) ∧
    (envFail.platform = Platform.win32 →
      sigsOf (killPort envFail 3000 true).2 =
        [Sig.taskkillF (envFail.pidBefore.getD 0)]) ∧
    (deliveryOk envFail = false →
      (killPort envFail 3000 true).1 =
        { success := false, message := finalKillErr envFail,
          pid := some (envFail.pidBefore.getD 0),
          name := some (processNameOf envFail) })) :=
  ⟨rfl, Or.inl rfl,
   killPort_escalation envFail 3000 true rfl (Or.inl rfl)⟩

/-- C6 as written is refuted: `findAvailablePort` signals search exhaustion
by throwing the error of resolver.js line 57 rather than returning a
structured result, here at start port 3000 with every probe reporting busy
and a budget of 5 attempts. -/
theorem exhausted_thrown_cex :
    findAvailablePort (fun _ => false) 3000 5 =
      Except.error (exhaustedMsg 5) := rfl

/-- C6 (amended): `killPort` surfaces the not-in-use, cancelled,
still-running and delivery-failure outcomes as structured result values,
while `findAvailablePort` signals search exhaustion by throwing an error
carrying the exhaustion message, which happens only when the start port
probe already failed. -/
theorem structured_results_amended (env : KillEnv) (port : Nat)
    (force : Bool) (avail : Nat → Bool) (startPort maxAttempts : Nat) :
    ((killPort env port force).1.success = false →
      ((killPort env port force).1.message =
          "No process found on this port" ∨
       (killPort env port force).1.message = "Cancelled by user" ∨
       (killPort env port force).1.message = "Process may still be running" ∨
       (killPort env port force).1.message = finalKillErr env)) ∧
    (∀ e, findAvailablePort avail startPort maxAttempts = Except.error e →
      e = exhaustedMsg maxAttempts ∧ avail startPort = false) := by
  constructor
  · intro hsucc
    obtain ⟨plat, pidB, nameO, conf, tOk, kOk, k9e, tkOk, tke, pidA⟩ := env
    cases hpb : truthyPid pidB with
    | false => simp [killPort, hpb]
    | true =>
      cases force <;> cases conf <;> cases plat <;> cases tOk <;>
        cases kOk <;> cases tkOk <;> cases hpa : truthyPid pidA <;>
        simp_all [killPort, afterKillCheck, finalKillErr]
  · intro e he
    by_cases ha : avail startPort = true
    · rw [findAvailablePort, if_pos ha] at he
      exact absurd he (by simp)
    · have ha2 : avail startPort = false := by
        revert ha; cases avail startPort <;> simp
      rw [findAvailablePort, if_neg (by simp [ha2])] at he
      cases hsl : searchLoop avail (startPort + 1) (maxAttempts - 1) with
      | some r => rw [hsl] at he; exact absurd he (by simp)
      | none =>
        rw [hsl] at he
        exact ⟨(Except.error.inj he).symm, ha2⟩

/-- Witness for C6 (amended): the cancelled message is among the structured
outcomes, and the exhaustion error carries the exhaustion message. -/
theorem structured_results_amended_witness :
    ((killPort envCancel 3000 false).1.message =
        "No process found on this port" ∨
     (killPort envCancel 3000 false).1.message = "Cancelled by user" ∨
     (killPort envCancel 3000 false).1.message =
        "Process may still be running" ∨
     (killPort envCancel 3000 false).1.message = finalKillErr envCancel) ∧
    (exhaustedMsg 5 = exhaustedMsg 5 ∧ (fun _ => false) 3000 = false) :=
  ⟨(structured_results_amended envCancel 3000 false (fun _ => false)
      3000 5).1 rfl,
   (structured_results_amended envCancel 3000 false (fun _ => false)
      3000 5).2 (exhaustedMsg 5) rfl⟩

/-- C7: for any in-range port the bind-probe resolves a boolean and never
rejects: an address-in-use failure resolves false, and any other bind
failure also resolves false instead of propagating. -/
theorem isPortAvailable_total (w : NetWorld) (p : Nat) (hp : p ≤ 65535) :
    (isPortAvailable w p = Except.ok (false, w) ∨
      ∃ w1, isPortAvailable w p = Except.ok (true, w1)) ∧
    (bindListen w p = Except.error BindErr.addrInUse →
      isPortAvailable w p = Except.ok (false, w)) ∧
    (∀ e, bindListen w p = Except.error e →
      isPortAvailable w p = Except.ok (false, w)) := by
  have hnp : ¬ 65535 < p := by omega
  refine ⟨?_, ?_, ?_⟩
  · rw [isPortAvailable, if_neg hnp]
    cases hb : bindListen w p with
    | error e => left; rfl
    | ok w1 => right; exact ⟨closeSocket w1 p, rfl⟩
  · intro hb
    rw [isPortAvailable, if_neg hnp, hb]
  · intro e hb
    rw [isPortAvailable, if_neg hnp, hb]

/-- Witness for C7 at port 80 of the empty socket table. -/
theorem isPortAvailable_total_witness :
    (80 ≤ 65535) ∧
    ((isPortAvailable freeWorld 80 = Except.ok (false, freeWorld) ∨
      ∃ w1, isPortAvailable freeWorld 80 = Except.ok (true, w1)) ∧
    (bindListen freeWorld 80 = Except.error BindErr.addrInUse →
      isPortAvailable freeWorld 80 = Except.ok (false, freeWorld)) ∧
    (∀ e, bindListen freeWorld 80 = Except.error e →
      isPortAvailable freeWorld 80 = Except.ok (false, freeWorld))) :=
  ⟨by omega, isPortAvailable_total freeWorld 80 (by omega)⟩

/-- C8: the probe closes its socket before resolving: on a port that nobody
has bound and that is not denied, the probe resolves true with the socket
table unchanged, so an immediately repeated probe resolves true again. -/
theorem probe_nondestructive (w : NetWorld) (p : Nat) (hp : p ≤ 65535)
    (hb : w.bound p = false) (hd : w.deny p = false) :
    isPortAvailable w p = Except.ok (true, w) ∧
    (∀ w1, isPortAvailable w p = Except.ok (true, w1) →
      isPortAvailable w1 p = Except.ok (true, w1)) := by
  have hnp : ¬ 65535 < p := by omega
  have hupd : closeSocket
      { w with bound := fun q => if q = p then true else w.bound q } p = w := by
    apply NetWorld.ext
    · funext q
      by_cases hq : q = p
      · subst hq
        simp [closeSocket, hb]
      · simp [closeSocket, hq]
    · rfl
  have hbl : bindListen w p =
      Except.ok
        { w with bound := fun q => if q = p then true else w.bound q } := by
    rw [bindListen, if_neg (by simp [hd]), if_neg (by simp [hb])]
  have hkey : isPortAvailable w p = Except.ok (true, w) := by
    rw [isPortAvailable, if_neg hnp, hbl]
    show Except.ok (true, closeSocket
      { w with bound := fun q => if q = p then true else w.bound q } p) =
      Except.ok (true, w)
    rw [hupd]
  refine ⟨hkey, ?_⟩
  intro w1 h1
  rw [hkey] at h1
  have h2 : (true, w) = (true, w1) := Except.ok.inj h1
  have h3 : w = w1 := congrArg Prod.snd h2
  rw [← h3]
  exact hkey

/-- Witness for C8 at port 3000 of the empty socket table. -/
theorem probe_nondestructive_witness :
    (3000 ≤ 65535) ∧ freeWorld.bound 3000 = false ∧
    freeWorld.deny 3000 = false ∧
    (isPortAvailable freeWorld 3000 = Except.ok (true, freeWorld) ∧
    (∀ w1, isPortAvailable freeWorld 3000 = Except.ok (true, w1) →
      isPortAvailable w1 3000 = Except.ok (true, w1))) :=
  ⟨by omega, rfl, rfl,
   probe_nondestructive freeWorld 3000 (by omega) rfl rfl⟩

/-- A returned first-available port is available, occurs in the list, and
every port listed before it was probed and found unavailable. -/
lemma findFirstAvailable_eq_some (avail : Nat → Bool) (l : List Nat)
    (p : Nat) (h : findFirstAvailable avail l = some p) :
    avail p = true ∧ ∃ pre post, l = pre ++ p :: post ∧
      ∀ q ∈ pre, avail q = false := by
  induction l with
  | nil => simp [findFirstAvailable] at h
  | cons a rest ih =>
    simp only [findFirstAvailable] at h
    split at h
    next hav =>
      obtain rfl : a = p := Option.some.inj h
      exact ⟨hav, [], rest, rfl, by simp⟩
    next hav =>
      have hav2 : avail a = false := by
        revert hav; cases avail a <;> simp
      obtain ⟨h1, pre, post, h2, h3⟩ := ih h
      refine ⟨h1, a :: pre, post, by simp [h2], ?_⟩
      intro q hq
      rcases List.mem_cons.mp hq with rfl | hq2
      · exact hav2
      · exact h3 q hq2

/-- When every listed port is unavailable, the loop finds none. -/
lemma findFirstAvailable_eq_none_of (avail : Nat → Bool) (l : List Nat)
    (h : ∀ q ∈ l, avail q = false) :
    findFirstAvailable avail l = none := by
  induction l with
  | nil => rfl
  | cons a rest ih =>
    simp only [findFirstAvailable]
    rw [if_neg (by simp [h a (by simp)])]
    exact ih (fun q hq => h q (by simp [hq]))

/-- C9: for a framework listed in the static suggestion table,
`findPortForFramework` probes the listed conventional ports in order and
returns the first available one, and falls back to the general
`findAvailablePort` search from port 3000 when none of them is available. -/
theorem framework_ports (avail : Nat → Bool) (framework : String)
    (ports : List Nat)
    (hl : List.lookup framework frameworkSuggestions = some ports) :
    (∀ p, findFirstAvailable avail ports = some p →
      findPortForFramework avail framework = Except.ok p ∧
      avail p = true ∧
      ∃ pre post, ports = pre ++ p :: post ∧ ∀ q ∈ pre, avail q = false) ∧
    ((∀ q ∈ ports, avail q = false) →
      findPortForFramework avail framework =
        findAvailablePort avail 3000 100) := by
  constructor
  · intro p hp
    refine ⟨?_, (findFirstAvailable_eq_some avail ports p hp).1,
      (findFirstAvailable_eq_some avail ports p hp).2⟩
    simp [findPortForFramework, preferredPortsOf, hl, hp]
  · intro h
    simp [findPortForFramework, preferredPortsOf, hl,
      findFirstAvailable_eq_none_of avail ports h]

/-- Witness for C9: Angular with 4200 busy and 4201 free. -/
theorem framework_ports_witness :
    List.lookup "Angular" frameworkSuggestions = some [4200, 4201] ∧
    ((∀ p, findFirstAvailable (fun q => decide (q = 4201)) [4200, 4201] =
        some p →
      findPortForFramework (fun q => decide (q = 4201)) "Angular" =
        Except.ok p ∧
      (fun q => decide (q = 4201)) p = true ∧
      ∃ pre post, [4200, 4201] = pre ++ p :: post ∧
        ∀ q ∈ pre, (fun q => decide (q = 4201)) q = false) ∧
    ((∀ q ∈ [4200, 4201], (fun q => decide (q = 4201)) q = false) →
      findPortForFramework (fun q => decide (q = 4201)) "Angular" =
        findAvailablePort (fun q => decide (q = 4201)) 3000 100)) :=
  ⟨rfl,
   framework_ports (fun q => decide (q = 4201)) "Angular" [4200, 4201] rfl⟩

/-- C10 as written is refuted at the unrecognized name toString: the
property read hits the inherited Object.prototype member, which is truthy
and not iterable, so the call throws a TypeError instead of probing the
default list (on which 3000 is free) and returning 3000. -/
theorem framework_ports_default_cex :
    List.lookup "toString" frameworkSuggestions = none ∧
    findPortForFramework (fun q => decide (q = 3000)) "toString" =
      Except.error "TypeError: preferredPorts is not iterable" ∧
    findPortForFramework (fun q => decide (q = 3000)) "toString" ≠
      Except.ok 3000 := by
  refine ⟨rfl, rfl, ?_⟩
  intro h
  rw [show findPortForFramework (fun q => decide (q = 3000)) "toString" =
      Except.error "TypeError: preferredPorts is not iterable" from rfl] at h
  exact Except.noConfusion h

/-- C10 (amended): for a framework name absent from the static suggestion
table and not the name of an inherited Object.prototype property, the
lookup reads undefined and the call does not fail: it probes the default
preferred list 3000, 4000, 5000, 8000 in that order, returns the first
available of those, otherwise falls back to `findAvailablePort` from 3000
— exactly as a listed framework with that default list would behave; for
an inherited Object.prototype property name the lookup yields a truthy
non-iterable value and the call throws a TypeError. -/
theorem framework_ports_default (avail : Nat → Bool) (framework : String)
    (hl : List.lookup framework frameworkSuggestions = none)
    (hproto : framework ∉ objectProtoProps) :
    defaultPreferredPorts = [3000, 4000, 5000, 8000] ∧
    (∀ p, findFirstAvailable avail defaultPreferredPorts = some p →
      findPortForFramework avail framework = Except.ok p ∧
      avail p = true ∧
      ∃ pre post, defaultPreferredPorts = pre ++ p :: post ∧
        ∀ q ∈ pre, avail q = false) ∧
    ((∀ q ∈ defaultPreferredPorts, avail q = false) →
      findPortForFramework avail framework =
        findAvailablePort avail 3000 100) ∧
    (∀ other, List.lookup other frameworkSuggestions =
        some defaultPreferredPorts →
      findPortForFramework avail framework =
        findPortForFramework avail other) ∧
    (∀ name, name ∈ objectProtoProps →
      findPortForFramework avail name =
        Except.error "TypeError: preferredPorts is not iterable") := by
  refine ⟨rfl, ?_, ?_, ?_, ?_⟩
  · intro p hp
    refine ⟨?_, (findFirstAvailable_eq_some avail _ p hp).1,
      (findFirstAvailable_eq_some avail _ p hp).2⟩
    simp [findPortForFramework, preferredPortsOf, hl, hproto, hp]
  · intro h
    simp [findPortForFramework, preferredPortsOf, hl, hproto,
      findFirstAvailable_eq_none_of avail defaultPreferredPorts h]
  · intro other hother
    simp [findPortForFramework, preferredPortsOf, hl, hproto, hother]
  · intro name hname
    simp only [objectProtoProps, List.mem_cons, List.not_mem_nil,
      or_false] at hname
    rcases hname with rfl | rfl | rfl | rfl | rfl | rfl | rfl | rfl | rfl |
      rfl | rfl | rfl <;> rfl

/-- Witness for C10 (amended): the unknown, non-inherited name Svelte with
3000 busy and 4000 free. -/
theorem framework_ports_default_witness :
    List.lookup "Svelte" frameworkSuggestions = none ∧
    "Svelte" ∉ objectProtoProps ∧
    (defaultPreferredPorts = [3000, 4000, 5000, 8000] ∧
    (∀ p, findFirstAvailable (fun q => decide (q = 4000))
        defaultPreferredPorts = some p →
      findPortForFramework (fun q => decide (q = 4000)) "Svelte" =
        Except.ok p ∧
      (fun q => decide (q = 4000)) p = true ∧
      ∃ pre post, defaultPreferredPorts = pre ++ p :: post ∧
        ∀ q ∈ pre, (fun q => decide (q = 4000)) q = false) ∧
    ((∀ q ∈ defaultPreferredPorts,
        (fun q => decide (q = 4000)) q = false) →
      findPortForFramework (fun q => decide (q = 4000)) "Svelte" =
        findAvailablePort (fun q => decide (q = 4000)) 3000 100) ∧
    (∀ other, List.lookup other frameworkSuggestions =
        some defaultPreferredPorts →
      findPortForFramework (fun q => decide (q = 4000)) "Svelte" =
        findPortForFramework (fun q => decide (q = 4000)) other) ∧
    (∀ name, name ∈ objectProtoProps →
      findPortForFramework (fun q => decide (q = 4000)) name =
        Except.error "TypeError: preferredPorts is not iterable")) :=
  ⟨rfl, by decide,
   framework_ports_default (fun q => decide (q = 4000)) "Svelte" rfl
     (by decide)⟩
